import Mathlib

/-!
Shallow embedding of the convoy aggregate of the armadabackend repository.

The authoritative implementation is the wired application under src/src:
the mongoose model src/src/models/Convoy.ts (instance methods addMember,
removeMember, startConvoy, endConvoy, updateLocation, the statics
findByJoinCode and findNearbyConvoys, and the pre-save middleware) together
with the request handlers in src/src/routes/convoys.ts (join, leave, start,
end, location).  The repository also contains an unnamed variant of the
convoy model (src/unnamed/part_002) whose removeMember, updateLocation and
findByJoinCode differ; the variant functions needed by the claims are
embedded in the Variant namespace.

Modelling conventions:
* user ids and convoy ids are natural numbers (ObjectId equality is value
  equality in mongoose casted arrays);
* dates are natural-number timestamps;
* geographic coordinates are rationals (the code computes with IEEE
  doubles; the claims under study concern comparison structure, not
  rounding);
* mongoose `save()` runs the pre-save middleware of Convoy.ts lines
  240-252, modelled by `preSave`; the join code generated by
  generateJoinCode is random, so `preSave` takes the fresh code as the
  `fresh` argument;
* a MongoDB collection is a list of convoys, findOne/find are find?/filter.
-/

/-- Visibility enum of Convoy.ts line 83: the source strings are
'public', 'invite', 'private' (pub / invite / priv here, since private is a
Lean keyword). -/
inductive Visibility where
  | pub
  | invite
  | priv
deriving DecidableEq, Repr

/-- IConvoyLocation (Convoy.ts lines 17-24): lat, lng required; heading,
speed, accuracy optional; updatedAt a timestamp. -/
structure GeoLocation where
  lat : ℚ
  lng : ℚ
  heading : Option ℚ
  speed : Option ℚ
  accuracy : Option ℚ
  updatedAt : ℕ
deriving DecidableEq, Repr

/-- IConvoy (Convoy.ts lines 26-43).  maxMembers has schema default 20 and
schema bounds 2..50, so it is always set on persisted documents; it is a
plain natural number here, with 0 playing the role of the absent value for
the `this.maxMembers || 20` fallback in addMember. -/
structure Convoy where
  id : ℕ
  ownerId : ℕ
  members : List ℕ
  title : Option String
  description : Option String
  isLive : Bool
  visibility : Visibility
  joinCode : Option String
  maxMembers : ℕ
  currentCenter : GeoLocation
  startedAt : Option ℕ
  endedAt : Option ℕ
  deletedAt : Option ℕ
deriving DecidableEq, Repr

/-- Error kinds returned by the route handlers in routes/convoys.ts
(CONVOY_NOT_FOUND, INVALID_JOIN_CODE, ALREADY_MEMBER, CONVOY_FULL,
INVITE_REQUIRED, NOT_MEMBER, ACCESS_DENIED, VALIDATION_ERROR), plus the
catch-all 500 INTERNAL_ERROR each handler's catch block answers for an
exception that is not a ZodError, such as a TypeError. -/
inductive ApiError where
  | convoyNotFound
  | invalidJoinCode
  | alreadyMember
  | convoyFull
  | inviteRequired
  | notMember
  | accessDenied
  | validationError
  | internalError
deriving DecidableEq, Repr

instance {ε α : Type} [DecidableEq ε] [DecidableEq α] : DecidableEq (Except ε α) :=
  fun x y =>
    match x, y with
    | Except.ok a, Except.ok b =>
      if h : a = b then isTrue (by rw [h]) else isFalse (by simp [h])
    | Except.ok _, Except.error _ => isFalse (by simp)
    | Except.error _, Except.ok _ => isFalse (by simp)
    | Except.error e, Except.error f =>
      if h : e = f then isTrue (by rw [h]) else isFalse (by simp [h])

/-- ASCII uppercasing, modelling the JS String.prototype.toUpperCase call
on the 6-character alphanumeric join codes (spelled with List.map so that
it computes by structural recursion). -/
def upperStr (s : String) : String :=
  ⟨s.data.map Char.toUpper⟩

/-- First half of the pre-save middleware (Convoy.ts lines 241-244):
if the owner is not in members, unshift it. -/
def ensureOwnerMember (c : Convoy) : Convoy :=
  if c.ownerId ∈ c.members then c
  else { c with members := c.ownerId :: c.members }

/-- Second half of the pre-save middleware (Convoy.ts lines 246-249):
generate a join code for invite convoys that have none.  The generated
code is random (generateJoinCode, lines 163-171); it is passed in as
`fresh`. -/
def ensureJoinCode (fresh : String) (c : Convoy) : Convoy :=
  if c.visibility = Visibility.invite ∧ c.joinCode = none then
    { c with joinCode := some fresh }
  else c

/-- The pre-save middleware of Convoy.ts lines 240-252, run by every
`save()`. -/
def preSave (fresh : String) (c : Convoy) : Convoy :=
  ensureJoinCode fresh (ensureOwnerMember c)

/-- isMember instance method (Convoy.ts lines 173-175): members.some with
id.equals(userId). -/
def isMember (c : Convoy) (u : ℕ) : Bool :=
  decide (u ∈ c.members)

/-- isOwner instance method (Convoy.ts lines 177-179). -/
def isOwner (c : Convoy) (u : ℕ) : Bool :=
  decide (c.ownerId = u)

/-- addMember instance method (Convoy.ts lines 121-126): push userId if
not already a member and under capacity (this.maxMembers || 20 — in JS
both undefined and 0 are falsy, hence the 0 test), then save. -/
def addMember (fresh : String) (c : Convoy) (u : ℕ) : Convoy :=
  preSave fresh
    (if u ∉ c.members ∧
        c.members.length < (if c.maxMembers = 0 then 20 else c.maxMembers) then
      { c with members := c.members ++ [u] }
    else c)

/-- removeMember instance method (Convoy.ts lines 128-137): filter userId
out of members; if the owner left and members remain, transfer ownership
to members[0]; then save. -/
def removeMember (fresh : String) (c : Convoy) (u : ℕ) : Convoy :=
  preSave fresh
    (if c.ownerId = u ∧ 0 < (c.members.filter (fun i => decide (i ≠ u))).length then
      { c with members := c.members.filter (fun i => decide (i ≠ u)),
               ownerId := (c.members.filter (fun i => decide (i ≠ u))).headD 0 }
    else { c with members := c.members.filter (fun i => decide (i ≠ u)) })

/-- startConvoy instance method (Convoy.ts lines 139-143). -/
def startConvoy (fresh : String) (now : ℕ) (c : Convoy) : Convoy :=
  preSave fresh { c with isLive := true, startedAt := some now }

/-- endConvoy instance method (Convoy.ts lines 145-149). -/
def endConvoy (fresh : String) (now : ℕ) (c : Convoy) : Convoy :=
  preSave fresh { c with isLive := false, endedAt := some now }

/-- updateLocation instance method (Convoy.ts lines 151-161): replace
currentCenter wholesale with the given fields and a fresh timestamp, then
save. -/
def updateLocation (fresh : String) (now : ℕ) (c : Convoy) (lat lng : ℚ)
    (heading speed accuracy : Option ℚ) : Convoy :=
  preSave fresh
    { c with currentCenter :=
        { lat := lat, lng := lng, heading := heading, speed := speed,
          accuracy := accuracy, updatedAt := now } }

/-- Convoy creation in POST /convoys (routes/convoys.ts lines 109-116):
new Convoy with members=[ownerId], isLive=false, followed by save.  The
zod schema createConvoySchema has already validated the payload. -/
def createConvoy (fresh : String) (id ownerId : ℕ) (title descr : Option String)
    (vis : Visibility) (maxM : ℕ) (center : GeoLocation) : Convoy :=
  preSave fresh
    { id := id, ownerId := ownerId, members := [ownerId], title := title,
      description := descr, isLive := false, visibility := vis,
      joinCode := none, maxMembers := maxM, currentCenter := center,
      startedAt := none, endedAt := none, deletedAt := none }

/-- Convoy.findById as used by the handlers (no deletedAt filter). -/
def findById (db : List Convoy) (id : ℕ) : Option Convoy :=
  db.find? (fun c => decide (c.id = id))

/-- findByJoinCode static (Convoy.ts lines 207-216): findOne with the code
as given (exact, case-sensitive match), restricted to isLive: true and
deletedAt: null. -/
def findByJoinCode (db : List Convoy) (code : String) : Option Convoy :=
  db.find? (fun c =>
    decide (c.joinCode = some code) && c.isLive && decide (c.deletedAt = none))

/-- Membership test of the bounding-box filter of findNearbyConvoys
(Convoy.ts lines 219-231): isLive: true, visibility: 'public',
deletedAt: null, currentCenter.lat within lat ± radiusKm/111 and
currentCenter.lng within lng ± radiusKm/(111·cos(lat·π/180)), bounds
inclusive ($gte/$lte).  The source computes the cosine factor as
Math.cos(lat * Math.PI / 180); being transcendental it is passed in here
as `cosLat`. -/
def nearbyPred (lat lng radiusKm cosLat : ℚ) (c : Convoy) : Bool :=
  c.isLive && decide (c.visibility = Visibility.pub) &&
  decide (c.deletedAt = none) &&
  decide (lat - radiusKm / 111 ≤ c.currentCenter.lat) &&
  decide (c.currentCenter.lat ≤ lat + radiusKm / 111) &&
  decide (lng - radiusKm / (111 * cosLat) ≤ c.currentCenter.lng) &&
  decide (c.currentCenter.lng ≤ lng + radiusKm / (111 * cosLat))

/-- Sort key relation of .sort with currentCenter.updatedAt: -1
(most recently updated location first). -/
def moreRecent (a b : Convoy) : Prop :=
  b.currentCenter.updatedAt ≤ a.currentCenter.updatedAt

instance : DecidableRel moreRecent :=
  fun a b => Nat.decLe b.currentCenter.updatedAt a.currentCenter.updatedAt

instance : IsTotal Convoy moreRecent :=
  ⟨fun a b => (Nat.le_total b.currentCenter.updatedAt a.currentCenter.updatedAt).imp id id⟩

instance : IsTrans Convoy moreRecent :=
  ⟨fun _ _ _ hab hbc => Nat.le_trans hbc hab⟩

/-- findNearbyConvoys static (Convoy.ts lines 218-237): filter by
nearbyPred, sort by currentCenter.updatedAt descending, limit. -/
def findNearbyConvoys (db : List Convoy) (lat lng radiusKm : ℚ) (limit : ℕ)
    (cosLat : ℚ) : List Convoy :=
  ((db.filter (nearbyPred lat lng radiusKm cosLat)).insertionSort moreRecent).take limit

/-- Checks and mutation of POST /convoys/:id/join (routes/convoys.ts lines
293-324) once the convoy is resolved: already-member check (409
ALREADY_MEMBER), capacity check members.length >= maxMembers (400
CONVOY_FULL), visibility check — only visibility === 'invite' with no code
supplied is refused (403 INVITE_REQUIRED) — then addMember. -/
def joinChecks (fresh : String) (c : Convoy) (joinCode : Option String) (u : ℕ) :
    Except ApiError Convoy :=
  if isMember c u then Except.error ApiError.alreadyMember
  else if c.members.length ≥ c.maxMembers then Except.error ApiError.convoyFull
  else if c.visibility = Visibility.invite ∧ joinCode = none then
    Except.error ApiError.inviteRequired
  else Except.ok (addMember fresh c u)

/-- Full POST /convoys/:id/join handler (routes/convoys.ts lines 254-352).
With an explicit join code the convoy is resolved through findByJoinCode
(404 INVALID_JOIN_CODE on miss) — but that static ends in .lean()
(Convoy.ts line 215), so it yields a plain object without the isMember and
addMember instance methods: the very next statement, convoy.isMember
(line 294), throws TypeError on every code-resolved convoy, and the catch
block maps it to 500 INTERNAL_ERROR with no state change.  Without a code
the convoy is looked up by id (404 CONVOY_NOT_FOUND on miss) as a hydrated
document, and joinChecks runs normally. -/
def joinConvoy (fresh : String) (db : List Convoy) (id : ℕ)
    (joinCode : Option String) (u : ℕ) : Except ApiError Convoy :=
  match joinCode with
  | some code =>
    match findByJoinCode db code with
    | some _ => Except.error ApiError.internalError
    | none => Except.error ApiError.invalidJoinCode
  | none =>
    match findById db id with
    | some c => joinChecks fresh c joinCode u
    | none => Except.error ApiError.convoyNotFound

/-- POST /convoys/:id/leave handler (routes/convoys.ts lines 355-409) on
the convoy found by id: NOT_MEMBER check, removeMember, then endConvoy if
members.length became 0. -/
def leaveConvoy (fresh : String) (now : ℕ) (c : Convoy) (u : ℕ) :
    Except ApiError Convoy :=
  if isMember c u = false then Except.error ApiError.notMember
  else if (removeMember fresh c u).members.length = 0 then
    Except.ok (endConvoy fresh now (removeMember fresh c u))
  else Except.ok (removeMember fresh c u)

/-- Request body of POST /convoys/:id/location. -/
structure LocationInput where
  lat : ℚ
  lng : ℚ
  heading : Option ℚ
  speed : Option ℚ
  accuracy : Option ℚ
deriving DecidableEq, Repr

/-- updateLocationSchema (routes/convoys.ts lines 36-42): lat and lng are
z.number() with no range bound; heading is optional with min 0 max 360;
speed and accuracy are optional with min 0. -/
def validLocationInput (i : LocationInput) : Bool :=
  (match i.heading with
   | some h => decide (0 ≤ h ∧ h ≤ 360)
   | none => true) &&
  (match i.speed with
   | some s => decide (0 ≤ s)
   | none => true) &&
  (match i.accuracy with
   | some a => decide (0 ≤ a)
   | none => true)

/-- POST /convoys/:id/location handler (routes/convoys.ts lines 518-595)
on the convoy found by id: zod validation happens first (a ZodError
aborts the request with VALIDATION_ERROR before any state is touched),
then the membership check (403 ACCESS_DENIED), then updateLocation. -/
def updateLocationHandler (fresh : String) (now : ℕ) (c : Convoy) (u : ℕ)
    (i : LocationInput) : Except ApiError Convoy :=
  if validLocationInput i = false then Except.error ApiError.validationError
  else if isMember c u = false then Except.error ApiError.accessDenied
  else Except.ok (updateLocation fresh now c i.lat i.lng i.heading i.speed i.accuracy)

namespace Variant

/-- removeMember of the unnamed variant model (src/unnamed/part_002 lines
140-143): filter userId out and save; this variant has no pre-save
middleware and no ownership transfer. -/
def removeMember (c : Convoy) (u : ℕ) : Convoy :=
  { c with members := c.members.filter (fun i => decide (i ≠ u)) }

/-- updateLocation of the unnamed variant model (src/unnamed/part_002
lines 157-173): replace currentCenter with the given fields and a fresh
timestamp (the conditional spreads leave absent optional fields absent);
no pre-save middleware. -/
def updateLocation (now : ℕ) (c : Convoy) (lat lng : ℚ)
    (heading speed accuracy : Option ℚ) : Convoy :=
  { c with currentCenter :=
      { lat := lat, lng := lng, heading := heading, speed := speed,
        accuracy := accuracy, updatedAt := now } }

/-- findByJoinCode of the unnamed variant model (src/unnamed/part_002
lines 208-215): findOne on code.toUpperCase() with deletedAt: null; no
isLive restriction. -/
def findByJoinCode (db : List Convoy) (code : String) : Option Convoy :=
  db.find? (fun c =>
    decide (c.joinCode = some (upperStr code)) && decide (c.deletedAt = none))

end Variant

/-- Saved-state predicate used by the invariant claims: the owner id is
one of the member ids. -/
def ownerMem (c : Convoy) : Prop :=
  c.ownerId ∈ c.members

/-- Lifting of a predicate over the success case of a handler result. -/
def okImplies {ε α : Type} (r : Except ε α) (P : α → Prop) : Prop :=
  match r with
  | Except.ok a => P a
  | Except.error _ => True

/-! ### Concrete fixtures used by witnesses and counterexamples -/

/-- Location snapshot at the origin. -/
def loc0 : GeoLocation :=
  { lat := 0, lng := 0, heading := none, speed := none, accuracy := none,
    updatedAt := 0 }

/-- A live public convoy whose owner is its sole member. -/
def soloConvoy : Convoy :=
  { id := 1, ownerId := 7, members := [7], title := none, description := none,
    isLive := true, visibility := Visibility.pub, joinCode := none,
    maxMembers := 20, currentCenter := loc0, startedAt := some 0,
    endedAt := none, deletedAt := none }

/-- A not-yet-started (isLive=false), non-deleted invite-only convoy with
join code ABC123 and room to spare. -/
def inviteOff : Convoy :=
  { id := 2, ownerId := 1, members := [1], title := none, description := none,
    isLive := false, visibility := Visibility.invite, joinCode := some "ABC123",
    maxMembers := 20, currentCenter := loc0, startedAt := none,
    endedAt := none, deletedAt := none }

/-- The same invite-only convoy once live. -/
def inviteLive : Convoy :=
  { inviteOff with isLive := true }

/-- A live private convoy with room to spare. -/
def privConvoy : Convoy :=
  { id := 3, ownerId := 1, members := [1], title := none, description := none,
    isLive := true, visibility := Visibility.priv, joinCode := none,
    maxMembers := 20, currentCenter := loc0, startedAt := some 0,
    endedAt := none, deletedAt := none }

/-- A live public convoy with member 7 used by the location claims. -/
def memConvoy : Convoy :=
  { id := 4, ownerId := 7, members := [7], title := none, description := none,
    isLive := true, visibility := Visibility.pub, joinCode := none,
    maxMembers := 20, currentCenter := loc0, startedAt := some 0,
    endedAt := none, deletedAt := none }

/-- A live public convoy at the origin for the nearby-search claims. -/
def pubNear : Convoy :=
  { id := 5, ownerId := 1, members := [1], title := none, description := none,
    isLive := true, visibility := Visibility.pub, joinCode := none,
    maxMembers := 20, currentCenter := loc0, startedAt := some 0,
    endedAt := none, deletedAt := none }

/-- A live invite convoy at the origin (inside any box around the origin)
for the nearby-search claims. -/
def nearInvite : Convoy :=
  { inviteOff with isLive := true, startedAt := some 0 }

/-- A three-member convoy whose owner 7 joined first, then 3, then 5. -/
def transferConvoy : Convoy :=
  { id := 6, ownerId := 7, members := [7, 3, 5], title := none,
    description := none, isLive := true, visibility := Visibility.pub,
    joinCode := none, maxMembers := 20, currentCenter := loc0,
    startedAt := some 0, endedAt := none, deletedAt := none }

/-- A convoy at capacity: maxMembers 2 with two members. -/
def fullConvoy : Convoy :=
  { id := 8, ownerId := 1, members := [1, 2], title := none,
    description := none, isLive := true, visibility := Visibility.pub,
    joinCode := none, maxMembers := 2, currentCenter := loc0,
    startedAt := some 0, endedAt := none, deletedAt := none }

/-- A convoy with one seat left: maxMembers 3 with two members. -/
def roomConvoy : Convoy :=
  { id := 9, ownerId := 1, members := [1, 2], title := none,
    description := none, isLive := true, visibility := Visibility.pub,
    joinCode := none, maxMembers := 3, currentCenter := loc0,
    startedAt := some 0, endedAt := none, deletedAt := none }

/-! ### Helper lemmas about the pre-save middleware -/

/-- The owner-repair step leaves the owner id unchanged. -/
theorem ensureOwnerMember_ownerId (c : Convoy) :
    (ensureOwnerMember c).ownerId = c.ownerId := by
  unfold ensureOwnerMember
  split <;> rfl

/-- After the owner-repair step the owner is a member. -/
theorem ensureOwnerMember_owner_mem (c : Convoy) :
    (ensureOwnerMember c).ownerId ∈ (ensureOwnerMember c).members := by
  unfold ensureOwnerMember
  split
  case isTrue h => exact h
  case isFalse h => exact List.mem_cons_self _ _

/-- If the owner already is a member, the owner-repair step is the
identity. -/
theorem ensureOwnerMember_of_mem (c : Convoy) (h : c.ownerId ∈ c.members) :
    ensureOwnerMember c = c := by
  unfold ensureOwnerMember
  exact if_pos h

/-- The join-code step touches only the joinCode field. -/
theorem ensureJoinCode_frame (fresh : String) (c : Convoy) :
    (ensureJoinCode fresh c).ownerId = c.ownerId ∧
    (ensureJoinCode fresh c).members = c.members ∧
    (ensureJoinCode fresh c).isLive = c.isLive ∧
    (ensureJoinCode fresh c).visibility = c.visibility ∧
    (ensureJoinCode fresh c).maxMembers = c.maxMembers ∧
    (ensureJoinCode fresh c).currentCenter = c.currentCenter ∧
    (ensureJoinCode fresh c).startedAt = c.startedAt ∧
    (ensureJoinCode fresh c).endedAt = c.endedAt ∧
    (ensureJoinCode fresh c).deletedAt = c.deletedAt ∧
    (ensureJoinCode fresh c).title = c.title ∧
    (ensureJoinCode fresh c).description = c.description ∧
    (ensureJoinCode fresh c).id = c.id := by
  unfold ensureJoinCode
  split <;> simp

/-- If the convoy already satisfies the join-code invariant
(invite implies a code is present), the join-code step is the identity. -/
theorem ensureJoinCode_of_inv (fresh : String) (c : Convoy)
    (h : c.visibility = Visibility.invite → c.joinCode ≠ none) :
    ensureJoinCode fresh c = c := by
  unfold ensureJoinCode
  split
  case isTrue hc => exact absurd hc.2 (h hc.1)
  case isFalse hc => rfl

/-- Every saved document has its owner among its members. -/
theorem preSave_owner_mem (fresh : String) (c : Convoy) :
    (preSave fresh c).ownerId ∈ (preSave fresh c).members := by
  unfold preSave
  have hf := ensureJoinCode_frame fresh (ensureOwnerMember c)
  rw [hf.1, hf.2.1]
  exact ensureOwnerMember_owner_mem c

/-- Every success path of joinChecks returns a saved document. -/
theorem joinChecks_ok (fresh : String) (c c' : Convoy) (code : Option String)
    (u : ℕ) (h : joinChecks fresh c code u = Except.ok c') :
    c' = addMember fresh c u := by
  unfold joinChecks at h
  split at h
  · exact absurd h (by simp)
  · split at h
    · exact absurd h (by simp)
    · split at h
      · exact absurd h (by simp)
      · exact (Except.ok.injEq _ _).mp h.symm

/-- C1: for every convoy and every mutating operation — create,
join/addMember, leave/removeMember, start, end, updateLocation — the
invariant ownerId ∈ members holds after the operation completes (every
operation ends in a save, and the pre-save middleware re-establishes the
invariant). -/
theorem owner_mem_after_every_mutation (fresh : String) (now : ℕ) (c : Convoy)
    (u : ℕ) (db : List Convoy) (cid : ℕ) (code : Option String)
    (id ownerId maxM : ℕ) (title descr : Option String) (vis : Visibility)
    (center : GeoLocation) (lat lng : ℚ) (hd sp ac : Option ℚ) :
    ownerMem (createConvoy fresh id ownerId title descr vis maxM center) ∧
    ownerMem (addMember fresh c u) ∧
    ownerMem (removeMember fresh c u) ∧
    ownerMem (startConvoy fresh now c) ∧
    ownerMem (endConvoy fresh now c) ∧
    ownerMem (updateLocation fresh now c lat lng hd sp ac) ∧
    okImplies (joinConvoy fresh db cid code u) ownerMem ∧
    okImplies (leaveConvoy fresh now c u) ownerMem := by
  refine ⟨preSave_owner_mem _ _, preSave_owner_mem _ _, preSave_owner_mem _ _,
    preSave_owner_mem _ _, preSave_owner_mem _ _, preSave_owner_mem _ _, ?_, ?_⟩
  · unfold joinConvoy
    cases code with
    | some cd =>
      cases hf : findByJoinCode db cd with
      | some c0 => simp [hf, okImplies]
      | none => simp [hf, okImplies]
    | none =>
      cases hf : findById db cid with
      | none => simp [hf, okImplies]
      | some c0 =>
        cases hj : joinChecks fresh c0 none u with
        | error e => simp [hj, okImplies]
        | ok c' =>
          have hc := joinChecks_ok fresh c0 c' none u hj
          simpa [hj, okImplies, hc, addMember] using preSave_owner_mem fresh _
  · unfold leaveConvoy
    split
    · simp [okImplies]
    · split
      · simpa [okImplies, endConvoy] using preSave_owner_mem fresh _
      · simpa [okImplies, removeMember] using preSave_owner_mem fresh _

/-- C2 (code bug): the spec says that when leave removes the last
remaining member the convoy is force-ended (isLive=false, endedAt set).
The leave handler (routes/convoys.ts lines 389-395) does contain this
force-end branch, but the pre-save middleware re-inserts the owner into
members during removeMember's save, so the member count never reaches 0:
when the sole member (the owner) leaves, the handler reports success with
the convoy completely unchanged — still live, endedAt unset, and the
leaver still a member. -/
theorem leave_sole_member_not_force_ended :
    leaveConvoy "XYZ123" 5 soloConvoy 7 = Except.ok soloConvoy ∧
    soloConvoy.members = [7] ∧
    soloConvoy.isLive = true ∧
    soloConvoy.endedAt = none := by
  decide

/-- Head with default of a nonempty list is a member. -/
theorem headD_mem_of_ne_nil (l : List ℕ) (h : l ≠ []) : l.headD 0 ∈ l := by
  cases l with
  | nil => exact absurd rfl h
  | cons a t => exact List.mem_cons_self a t

/-- Filtering out an element that occurs exactly once shortens the list by
exactly one. -/
theorem length_filter_ne_of_count_one (a : ℕ) :
    ∀ l : List ℕ, l.count a = 1 →
      (l.filter (fun i => decide (i ≠ a))).length = l.length - 1 := by
  intro l
  induction l with
  | nil => simp
  | cons b t ih =>
    intro h
    by_cases hb : b = a
    · subst hb
      have hc : t.count b = 0 := by
        have := List.count_cons_self b t
        omega
      have hnot : b ∉ t := List.count_eq_zero.mp hc
      have hfil : t.filter (fun i => decide (i ≠ b)) = t := by
        apply List.filter_eq_self.mpr
        intro x hx
        simp only [decide_eq_true_eq]
        intro he
        exact hnot (he ▸ hx)
      have hbb : (decide (b ≠ b)) = false := by simp
      rw [List.filter_cons, hbb]
      simp only [Bool.false_eq_true, if_false, hfil, List.length_cons]
      omega
    · have hcount : t.count a = 1 := by
        rw [List.count_cons_of_ne (Ne.symm hb)] at h
        exact h
      have hmem : a ∈ t := by
        have hp : 0 < t.count a := by omega
        exact List.count_pos_iff.mp hp
      have hlen : 0 < t.length := List.length_pos.mpr (List.ne_nil_of_mem hmem)
      have hih := ih hcount
      have hbne : (decide (b ≠ a)) = true := by simp [hb]
      rw [List.filter_cons, if_pos hbne]
      simp only [List.length_cons]
      omega

/-- C3: on a convoy with at least two members whose owner occurs exactly
once in the member list (the situation every reachable state is in, since
addMember and the pre-save middleware guard against duplicates),
removeMember applied to the current owner removes exactly the owner,
transfers ownership to the earliest-joined remaining member — the first
remaining element of the member list, whose order is join order — and
the member count decreases by exactly one. -/
theorem removeMember_owner_transfer (fresh : String) (c : Convoy)
    (h1 : c.members.count c.ownerId = 1) (h2 : 2 ≤ c.members.length) :
    (removeMember fresh c c.ownerId).members
        = c.members.filter (fun i => decide (i ≠ c.ownerId)) ∧
    (removeMember fresh c c.ownerId).ownerId
        = (removeMember fresh c c.ownerId).members.headD 0 ∧
    (removeMember fresh c c.ownerId).ownerId
        ∈ (removeMember fresh c c.ownerId).members ∧
    (removeMember fresh c c.ownerId).members.length = c.members.length - 1 ∧
    c.ownerId ∉ (removeMember fresh c c.ownerId).members := by
  have hlen : (c.members.filter (fun i => decide (i ≠ c.ownerId))).length
      = c.members.length - 1 :=
    length_filter_ne_of_count_one c.ownerId c.members h1
  have hpos : 0 < (c.members.filter (fun i => decide (i ≠ c.ownerId))).length := by
    omega
  have hne : c.members.filter (fun i => decide (i ≠ c.ownerId)) ≠ [] := by
    intro hnil
    rw [hnil] at hpos
    simp at hpos
  have hhead : (c.members.filter (fun i => decide (i ≠ c.ownerId))).headD 0
      ∈ c.members.filter (fun i => decide (i ≠ c.ownerId)) :=
    headD_mem_of_ne_nil _ hne
  have hnotmem : c.ownerId ∉ c.members.filter (fun i => decide (i ≠ c.ownerId)) := by
    intro hmem
    have := (List.mem_filter.mp hmem).2
    simp at this
  unfold removeMember
  rw [if_pos ⟨rfl, hpos⟩]
  have hinv : ∀ d : Convoy, d.ownerId ∈ d.members → preSave fresh d = ensureJoinCode fresh d := by
    intro d hd
    unfold preSave
    rw [ensureOwnerMember_of_mem d hd]
  set d : Convoy :=
    { c with members := c.members.filter (fun i => decide (i ≠ c.ownerId)),
             ownerId := (c.members.filter (fun i => decide (i ≠ c.ownerId))).headD 0 } with hd
  have hdmem : d.ownerId ∈ d.members := hhead
  rw [hinv d hdmem]
  have hf := ensureJoinCode_frame fresh d
  refine ⟨?_, ?_, ?_, ?_, ?_⟩
  · rw [hf.2.1]
  · rw [hf.1, hf.2.1]
  · rw [hf.1, hf.2.1]
    exact hhead
  · rw [hf.2.1]
    exact hlen
  · rw [hf.2.1]
    exact hnotmem

/-- Witness for removeMember_owner_transfer at the convoy with members
7, 3, 5 and owner 7: after the owner leaves, ownership moved to the head
of the remaining list and the count dropped from three to two. -/
theorem removeMember_owner_transfer_witness :
    (removeMember "JC0001" transferConvoy transferConvoy.ownerId).ownerId
        = (removeMember "JC0001" transferConvoy transferConvoy.ownerId).members.headD 0 ∧
    (removeMember "JC0001" transferConvoy transferConvoy.ownerId).members.length
        = transferConvoy.members.length - 1 :=
  ⟨(removeMember_owner_transfer "JC0001" transferConvoy (by decide) (by decide)).2.1,
   (removeMember_owner_transfer "JC0001" transferConvoy (by decide) (by decide)).2.2.2.1⟩

/-- When a non-member joins a convoy that still has room, addMember
appends them, so they are a member afterwards. -/
theorem mem_addMember (fresh : String) (c : Convoy) (u : ℕ)
    (hmem : u ∉ c.members) (hcap : c.members.length < c.maxMembers) :
    u ∈ (addMember fresh c u).members := by
  unfold addMember
  have hmax : c.maxMembers ≠ 0 := by omega
  rw [if_pos ⟨hmem, by rw [if_neg hmax]; exact hcap⟩]
  unfold preSave
  have hf := ensureJoinCode_frame fresh
    (ensureOwnerMember { c with members := c.members ++ [u] })
  rw [hf.2.1]
  unfold ensureOwnerMember
  split
  · simp
  · simp

/-- When a non-member joins a convoy that still has room and whose owner
is already a member, addMember grows the member list by exactly one. -/
theorem addMember_length (fresh : String) (c : Convoy) (u : ℕ)
    (hmem : u ∉ c.members) (hcap : c.members.length < c.maxMembers)
    (howner : c.ownerId ∈ c.members) :
    (addMember fresh c u).members.length = c.members.length + 1 := by
  unfold addMember
  have hmax : c.maxMembers ≠ 0 := by omega
  rw [if_pos ⟨hmem, by rw [if_neg hmax]; exact hcap⟩]
  unfold preSave
  have hf := ensureJoinCode_frame fresh
    (ensureOwnerMember { c with members := c.members ++ [u] })
  rw [hf.2.1]
  rw [ensureOwnerMember_of_mem _ (by simpa using Or.inl howner)]
  simp

/-- C4: joining a convoy whose member count equals maxMembers as a
non-member fails with the capacity error (the handler returns before any
mutation, so the convoy state is unchanged), and any successful join on a
convoy whose owner is a member keeps the member count within maxMembers. -/
theorem join_at_capacity_rejected (fresh : String) (c : Convoy) (u : ℕ)
    (code : Option String) (c2 : Convoy) (u2 : ℕ) (code2 : Option String)
    (c2' : Convoy)
    (h1 : isMember c u = false) (h2 : c.members.length = c.maxMembers)
    (h3 : c2.ownerId ∈ c2.members)
    (h4 : joinChecks fresh c2 code2 u2 = Except.ok c2') :
    joinChecks fresh c code u = Except.error ApiError.convoyFull ∧
    c2'.members.length ≤ c2.maxMembers := by
  constructor
  · unfold joinChecks
    rw [if_neg (by simp [h1]), if_pos (by omega)]
  · unfold joinChecks at h4
    by_cases hm : isMember c2 u2 = true
    · rw [if_pos hm] at h4
      exact absurd h4 (by simp)
    · rw [if_neg hm] at h4
      by_cases hcap : c2.members.length ≥ c2.maxMembers
      · rw [if_pos hcap] at h4
        exact absurd h4 (by simp)
      · rw [if_neg hcap] at h4
        by_cases hv : c2.visibility = Visibility.invite ∧ code2 = none
        · rw [if_pos hv] at h4
          exact absurd h4 (by simp)
        · rw [if_neg hv] at h4
          have hc2' : c2' = addMember fresh c2 u2 := by
            injection h4 with h
            exact h.symm
          have hnm : u2 ∉ c2.members := by
            intro hmm
            exact hm (by simp [isMember, hmm])
          have hlt : c2.members.length < c2.maxMembers := by omega
          rw [hc2', addMember_length fresh c2 u2 hnm hlt h3]
          omega

/-- Witness for join_at_capacity_rejected: user 3 cannot join the full
two-seat convoy, while user 5 joining the three-seat convoy with a free
seat stays within capacity. -/
theorem join_at_capacity_rejected_witness :
    joinChecks "JC0002" fullConvoy none 3 = Except.error ApiError.convoyFull ∧
    (addMember "JC0002" roomConvoy 5).members.length ≤ roomConvoy.maxMembers :=
  join_at_capacity_rejected "JC0002" fullConvoy 3 none roomConvoy 5 none
    (addMember "JC0002" roomConvoy 5) (by decide) (by decide) (by decide)
    (by decide)

/-- C5 (code bug): joining with an invite-only convoy's correct join code
never succeeds in the program.  For a live, non-deleted, not-full invite
convoy with code ABC123 and non-member user 9, the handler resolves the
code via findByJoinCode, whose .lean() result is a plain object without
instance methods; the following convoy.isMember call throws TypeError and
the catch block answers 500 INTERNAL_ERROR with no member added — where
the claim (and the handler's own success path, routes/convoys.ts lines
323-333) intends the join to succeed.  A non-live invite convoy's correct
code already fails earlier with 404 INVALID_JOIN_CODE, since findByJoinCode
filters on isLive: true.  The claim's other half does hold: joining the
same convoy by id without a code fails with INVITE_REQUIRED. -/
theorem join_with_correct_code_crashes :
    joinConvoy "JC0003" [inviteLive] 2 (some "ABC123") 9
        = Except.error ApiError.internalError ∧
    inviteLive.isLive = true ∧
    inviteLive.deletedAt = none ∧
    inviteLive.visibility = Visibility.invite ∧
    inviteLive.joinCode = some "ABC123" ∧
    inviteLive.members.length < inviteLive.maxMembers ∧
    isMember inviteLive 9 = false ∧
    findByJoinCode [inviteLive] "ABC123" = some inviteLive ∧
    joinConvoy "JC0004" [inviteOff] 2 (some "ABC123") 9
        = Except.error ApiError.invalidJoinCode ∧
    inviteOff.isLive = false ∧
    joinConvoy "JC0003" [inviteLive] 2 none 9
        = Except.error ApiError.inviteRequired := by
  decide

/-- C6 counterexample: a non-member joining a private convoy by id without
a code succeeds — the join handler checks only visibility === 'invite'
(routes/convoys.ts lines 313-321) and never blocks 'private', so user 9
becomes a member of the private convoy. -/
theorem join_private_by_id_succeeds :
    joinConvoy "JC0005" [privConvoy] 3 none 9
        = Except.ok (addMember "JC0005" privConvoy 9) ∧
    privConvoy.visibility = Visibility.priv ∧
    isMember privConvoy 9 = false ∧
    isMember (addMember "JC0005" privConvoy 9) 9 = true := by
  decide

/-- C6 amended: join by convoy id without a join code is refused only for
invite-visibility convoys (INVITE_REQUIRED); for any other visibility —
public and also private — a non-member join on a non-full convoy
succeeds via addMember. -/
theorem join_by_id_checks_invite_only (fresh : String) (db : List Convoy)
    (cid u : ℕ) (c : Convoy)
    (h1 : findById db cid = some c)
    (h2 : isMember c u = false)
    (h3 : c.members.length < c.maxMembers) :
    joinConvoy fresh db cid none u =
      (if c.visibility = Visibility.invite then
        Except.error ApiError.inviteRequired
      else Except.ok (addMember fresh c u)) := by
  simp only [joinConvoy, h1]
  unfold joinChecks
  rw [if_neg (by simp [h2]), if_neg (by omega)]
  by_cases hv : c.visibility = Visibility.invite
  · rw [if_pos ⟨hv, rfl⟩, if_pos hv]
  · rw [if_neg (by simp [hv]), if_neg hv]

/-- Witness for join_by_id_checks_invite_only at the private convoy: the
right-hand side evaluates through the else branch, so the join succeeds. -/
theorem join_by_id_checks_invite_only_witness :
    joinConvoy "JC0006" [privConvoy] 3 none 8 =
      (if privConvoy.visibility = Visibility.invite then
        Except.error ApiError.inviteRequired
      else Except.ok (addMember "JC0006" privConvoy 8)) :=
  join_by_id_checks_invite_only "JC0006" [privConvoy] 3 8 privConvoy
    (by decide) (by decide) (by decide)

/-- C7 counterexample: updateLocation with lat=91 (out of the claimed
[-90,90] range) is accepted, not rejected — updateLocationSchema checks
lat and lng only for being numbers — and it does alter currentCenter. -/
theorem updateLocation_lat_91_accepted :
    updateLocationHandler "JC0007" 9 memConvoy 7
        { lat := 91, lng := 0, heading := none, speed := none, accuracy := none }
      = Except.ok (updateLocation "JC0007" 9 memConvoy 91 0 none none none) ∧
    (updateLocation "JC0007" 9 memConvoy 91 0 none none none).currentCenter.lat = 91 ∧
    ¬ ((91 : ℚ) ≤ 90) ∧
    memConvoy.currentCenter.lat = 0 := by
  decide

/-- C7 amended: the location handler validates only heading (in [0,360]
when present), speed (nonnegative when present) and accuracy (nonnegative
when present); lat and lng are unconstrained.  heading=361 fails with
VALIDATION_ERROR before the convoy is touched, and any input passing the
actual checks succeeds for a member, overwriting currentCenter. -/
theorem updateLocation_validation_rules (fresh : String) (now : ℕ)
    (c : Convoy) (u : ℕ) (i : LocationInput) (hm : isMember c u = true) :
    (updateLocationHandler fresh now c u i = Except.error ApiError.validationError
        ↔ validLocationInput i = false) ∧
    (i.heading = some 361 →
      updateLocationHandler fresh now c u i = Except.error ApiError.validationError) ∧
    (validLocationInput i = true →
      updateLocationHandler fresh now c u i
        = Except.ok (updateLocation fresh now c i.lat i.lng i.heading i.speed i.accuracy)) := by
  have h361 : i.heading = some 361 → validLocationInput i = false := by
    intro hh
    have hdec : (decide ((0 : ℚ) ≤ 361 ∧ (361 : ℚ) ≤ 360)) = false := by
      decide
    unfold validLocationInput
    simp only [hh]
    rw [hdec, Bool.false_and, Bool.false_and]
  by_cases hv : validLocationInput i = false
  · unfold updateLocationHandler
    rw [if_pos hv]
    refine ⟨by simp [hv], fun _ => rfl, ?_⟩
    intro ht
    rw [hv] at ht
    exact Bool.noConfusion ht
  · have hv' : validLocationInput i = true := by
      cases hq : validLocationInput i
      · exact absurd hq hv
      · rfl
    unfold updateLocationHandler
    rw [if_neg hv, if_neg (by simp [hm])]
    refine ⟨by simp [hv'], ?_, fun _ => rfl⟩
    intro hh
    exact absurd (h361 hh) hv

/-- Witness for updateLocation_validation_rules: member 7 sending
heading=361 gets VALIDATION_ERROR. -/
theorem updateLocation_validation_rules_witness :
    updateLocationHandler "JC0008" 9 memConvoy 7
        { lat := 5, lng := 6, heading := some 361, speed := none, accuracy := none }
      = Except.error ApiError.validationError :=
  (updateLocation_validation_rules "JC0008" 9 memConvoy 7
    { lat := 5, lng := 6, heading := some 361, speed := none, accuracy := none }
    (by decide)).2.1 (by decide)

/-- C8: on a convoy satisfying the standing invariants (owner is a member,
and an invite convoy already has a join code), a successful updateLocation
replaces currentCenter entirely with the supplied fields and the fresh
timestamp — nothing from the previous snapshot survives, since the new
snapshot is built from the arguments alone — and every other convoy field
is untouched.  The same holds for the part_002 variant, which needs no
invariant because it has no pre-save middleware. -/
theorem updateLocation_total_overwrite (fresh : String) (now : ℕ)
    (c : Convoy) (lat lng : ℚ) (hd sp ac : Option ℚ)
    (h1 : c.ownerId ∈ c.members)
    (h2 : c.visibility = Visibility.invite → c.joinCode ≠ none) :
    updateLocation fresh now c lat lng hd sp ac
      = { c with currentCenter :=
            { lat := lat, lng := lng, heading := hd, speed := sp,
              accuracy := ac, updatedAt := now } } ∧
    Variant.updateLocation now c lat lng hd sp ac
      = { c with currentCenter :=
            { lat := lat, lng := lng, heading := hd, speed := sp,
              accuracy := ac, updatedAt := now } } := by
  constructor
  · unfold updateLocation preSave
    rw [ensureOwnerMember_of_mem
      { c with currentCenter :=
          { lat := lat, lng := lng, heading := hd, speed := sp,
            accuracy := ac, updatedAt := now } } h1]
    exact ensureJoinCode_of_inv fresh
      { c with currentCenter :=
          { lat := lat, lng := lng, heading := hd, speed := sp,
            accuracy := ac, updatedAt := now } } h2
  · rfl

/-- Witness for updateLocation_total_overwrite at a public convoy whose
snapshot had heading none: the new snapshot is exactly the sent fields. -/
theorem updateLocation_total_overwrite_witness :
    updateLocation "JC0009" 42 memConvoy 10 20 (some 90) (some 3) (some 1)
      = { memConvoy with currentCenter :=
            { lat := 10, lng := 20, heading := some 90, speed := some 3,
              accuracy := some 1, updatedAt := 42 } } ∧
    Variant.updateLocation 42 memConvoy 10 20 (some 90) (some 3) (some 1)
      = { memConvoy with currentCenter :=
            { lat := 10, lng := 20, heading := some 90, speed := some 3,
              accuracy := some 1, updatedAt := 42 } } :=
  updateLocation_total_overwrite "JC0009" 42 memConvoy 10 20 (some 90)
    (some 3) (some 1) (by decide) (by decide)

/-- C9 counterexample: a live, non-deleted convoy whose currentCenter lies
inside the bounding box is not returned by findNearbyConvoys when its
visibility is invite — the query (Convoy.ts lines 219-231) additionally
filters on visibility: 'public', which the claim omits. -/
theorem findNearby_omits_live_invite_in_box :
    findNearbyConvoys [nearInvite] 0 0 111 20 1 = [] ∧
    nearInvite.isLive = true ∧
    nearInvite.deletedAt = none ∧
    (0 : ℚ) - 111 / 111 ≤ nearInvite.currentCenter.lat ∧
    nearInvite.currentCenter.lat ≤ (0 : ℚ) + 111 / 111 ∧
    (0 : ℚ) - 111 / (111 * 1) ≤ nearInvite.currentCenter.lng ∧
    nearInvite.currentCenter.lng ≤ (0 : ℚ) + 111 / (111 * 1) := by
  refine ⟨by decide, by decide, by decide, ?_, ?_, ?_, ?_⟩ <;>
    norm_num [nearInvite, inviteOff, loc0]

/-- C9 amended: when the matches fit within the limit, findNearbyConvoys
returns exactly the live, PUBLIC, non-deleted convoys whose currentCenter
lies in the bounding box with latitude delta radiusKm/111 and longitude
delta radiusKm/(111·cosLat) where cosLat is the cos(lat·π/180) factor the
source computes, with inclusive bounds, ordered by most-recently-updated
location. -/
theorem findNearby_exactly_public_in_box (db : List Convoy)
    (lat lng radiusKm cosLat : ℚ) (limit : ℕ)
    (h : (db.filter (nearbyPred lat lng radiusKm cosLat)).length ≤ limit) :
    (∀ c : Convoy, c ∈ findNearbyConvoys db lat lng radiusKm limit cosLat ↔
      (c ∈ db ∧ c.isLive = true ∧ c.visibility = Visibility.pub ∧
       c.deletedAt = none ∧
       lat - radiusKm / 111 ≤ c.currentCenter.lat ∧
       c.currentCenter.lat ≤ lat + radiusKm / 111 ∧
       lng - radiusKm / (111 * cosLat) ≤ c.currentCenter.lng ∧
       c.currentCenter.lng ≤ lng + radiusKm / (111 * cosLat))) ∧
    List.Sorted moreRecent (findNearbyConvoys db lat lng radiusKm limit cosLat) := by
  have htake : findNearbyConvoys db lat lng radiusKm limit cosLat
      = (db.filter (nearbyPred lat lng radiusKm cosLat)).insertionSort moreRecent := by
    unfold findNearbyConvoys
    apply List.take_of_length_le
    rw [List.length_insertionSort]
    exact h
  constructor
  · intro c
    rw [htake, (List.perm_insertionSort moreRecent _).mem_iff, List.mem_filter]
    unfold nearbyPred
    simp only [Bool.and_eq_true, decide_eq_true_eq]
    tauto
  · rw [htake]
    exact List.sorted_insertionSort moreRecent _

/-- Witness for findNearby_exactly_public_in_box on a one-convoy database:
the public convoy at the origin is returned for the origin query, and the
result list is sorted. -/
theorem findNearby_exactly_public_in_box_witness :
    (pubNear ∈ findNearbyConvoys [pubNear] 0 0 111 20 1 ↔
      (pubNear ∈ [pubNear] ∧ pubNear.isLive = true ∧
       pubNear.visibility = Visibility.pub ∧
       pubNear.deletedAt = none ∧
       (0 : ℚ) - 111 / 111 ≤ pubNear.currentCenter.lat ∧
       pubNear.currentCenter.lat ≤ (0 : ℚ) + 111 / 111 ∧
       (0 : ℚ) - 111 / (111 * 1) ≤ pubNear.currentCenter.lng ∧
       pubNear.currentCenter.lng ≤ (0 : ℚ) + 111 / (111 * 1))) ∧
    List.Sorted moreRecent (findNearbyConvoys [pubNear] 0 0 111 20 1) := by
  have hp : nearbyPred 0 0 111 1 pubNear = true := by
    simp [nearbyPred, pubNear, loc0]
  have h : (List.filter (nearbyPred 0 0 111 1) [pubNear]).length ≤ 20 := by
    simp [List.filter_cons, hp]
  exact ⟨(findNearby_exactly_public_in_box [pubNear] 0 0 111 1 20 h).1 pubNear,
    (findNearby_exactly_public_in_box [pubNear] 0 0 111 1 20 h).2⟩

/-- C10 counterexample: looking up the stored code ABC123 with different
letter case (abc123) returns nothing from the main model's findByJoinCode,
although a non-deleted (and even live) convoy with that code up to case
exists — the main lookup is case-sensitive.  The part_002 variant, which
uppercases the query, does find it. -/
theorem findByJoinCode_lowercase_misses :
    findByJoinCode [inviteLive] "abc123" = none ∧
    inviteLive.deletedAt = none ∧
    inviteLive.isLive = true ∧
    inviteLive.joinCode = some "ABC123" ∧
    upperStr "abc123" = upperStr "ABC123" ∧
    Variant.findByJoinCode [inviteLive] "abc123" = some inviteLive := by
  decide

/-- C10 amended: the main model's findByJoinCode resolves a code only to a
live, non-deleted convoy whose stored joinCode equals the queried string
exactly (case-sensitively), while the part_002 variant resolves the
uppercased query against non-deleted convoys of any live state — so
lookups are case-insensitive only in the variant, and only because stored
codes are generated in upper case. -/
theorem findByJoinCode_exact_match_rules (db : List Convoy) (code : String)
    (c c2 : Convoy)
    (h1 : findByJoinCode db code = some c)
    (h2 : Variant.findByJoinCode db code = some c2) :
    (c ∈ db ∧ c.joinCode = some code ∧ c.isLive = true ∧ c.deletedAt = none) ∧
    (c2 ∈ db ∧ c2.joinCode = some (upperStr code) ∧ c2.deletedAt = none) := by
  constructor
  · have hmem : c ∈ db := List.mem_of_find?_eq_some h1
    have hp := List.find?_some h1
    simp only [Bool.and_eq_true, decide_eq_true_eq] at hp
    exact ⟨hmem, hp.1.1, hp.1.2, hp.2⟩
  · have hmem : c2 ∈ db := List.mem_of_find?_eq_some h2
    have hp := List.find?_some h2
    simp only [Variant.findByJoinCode, Bool.and_eq_true, decide_eq_true_eq] at hp
    exact ⟨hmem, hp.1, hp.2⟩

/-- Witness for findByJoinCode_exact_match_rules: the upper-case query
ABC123 resolves in both lookup implementations. -/
theorem findByJoinCode_exact_match_rules_witness :
    (inviteLive ∈ [inviteLive] ∧ inviteLive.joinCode = some "ABC123" ∧
     inviteLive.isLive = true ∧ inviteLive.deletedAt = none) ∧
    (inviteLive ∈ [inviteLive] ∧ inviteLive.joinCode = some (upperStr "ABC123") ∧
     inviteLive.deletedAt = none) :=
  findByJoinCode_exact_match_rules [inviteLive] "ABC123" inviteLive inviteLive
    (by decide) (by decide)
